import Mathlib

/-!
# Descriptor resolver of `pkg/exporter/fd_helper.go`

A shallow embedding of `GetFdFromConnSafe`, the function that digs the OS file
descriptor out of a `net.Conn` with the `reflect` package, together with the
part of the Go semantics it relies on:

* the `reflect.Value` operations the function calls (`ValueOf`, `Indirect`,
  `FieldByName`, `IsValid`, `Elem`, `Int`), each of which may panic;
* statement-level control flow (a value, an executed `return`, an unwinding
  panic);
* the function frame: local variables, the unnamed result slots, the deferred
  closure with its `recover()`, and what the caller finally observes.
-/

namespace Exporter

/-! ## Go values as seen through `reflect` -/

/-- The five signed integer kinds, the ones `reflect.Value.Int` accepts. -/
inductive IntKind where
  | Int | Int8 | Int16 | Int32 | Int64
  deriving DecidableEq

/-- The kinds that the traversal can neither descend into nor read an integer
from. -/
inductive OtherKind where
  | Bool
  | Uint | Uint8 | Uint16 | Uint32 | Uint64 | Uintptr
  | Float32 | Float64 | Complex64 | Complex128
  | Array | Chan | Func | Map | Slice | String | UnsafePointer
  deriving DecidableEq

/-- A `reflect.Value`.

* `zero` is `reflect.Value{}` (kind `Invalid`).
* `int k n` is a value of signed integer kind `k` holding `n`.
* `ptr e` is a pointer, `none` being the nil pointer.
* `iface e` is a value of kind `Interface` (a struct field of interface
  type), `none` being the nil interface.
* `struct fs` is a struct, given by what `FieldByName` resolves on it:
  `(name, some x)` when `name` resolves (directly, or promoted through embedded
  fields) to the field value `x`; `(name, none)` when `name` resolves to a
  promoted field that sits behind a nil embedded pointer; a name that is not
  listed does not resolve.
* `other k` is a value of any remaining kind. -/
inductive Value where
  | zero
  | int (k : IntKind) (n : Int)
  | ptr (e : Option Value)
  | iface (e : Option Value)
  | struct (fs : List (String × Option Value))
  | other (k : OtherKind)

/-- The result of `Kind.String()` for a signed integer kind. -/
def intKindString : IntKind → String
  | .Int => "int"
  | .Int8 => "int8"
  | .Int16 => "int16"
  | .Int32 => "int32"
  | .Int64 => "int64"

/-- The result of `Kind.String()` for the remaining kinds. -/
def otherKindString : OtherKind → String
  | .Bool => "bool"
  | .Uint => "uint"
  | .Uint8 => "uint8"
  | .Uint16 => "uint16"
  | .Uint32 => "uint32"
  | .Uint64 => "uint64"
  | .Uintptr => "uintptr"
  | .Float32 => "float32"
  | .Float64 => "float64"
  | .Complex64 => "complex64"
  | .Complex128 => "complex128"
  | .Array => "array"
  | .Chan => "chan"
  | .Func => "func"
  | .Map => "map"
  | .Slice => "slice"
  | .String => "string"
  | .UnsafePointer => "unsafe.Pointer"

/-- The text of a `*reflect.ValueError` raised by `method` on the value `v`:
`reflect: call of <method> on <kind> Value`, with `zero` for the invalid
kind. -/
def ValueError (method : String) (v : Value) : String :=
  "reflect: call of " ++ method ++ " on " ++
    (match v with
     | .zero => "zero"
     | .int k _ => intKindString k
     | .ptr _ => "ptr"
     | .iface _ => "interface"
     | .struct _ => "struct"
     | .other k => otherKindString k) ++ " Value"

/-! ## Control flow inside a function body -/

/-- How the evaluation of a piece of a function body ends: with a value, with
an executed `return fd, err`, or with a panic that unwinds. -/
inductive Ctl (α : Type) where
  | val (a : α)
  | ret (fd : Int) (err : Option String)
  | panic (r : String)
  deriving DecidableEq

/-- A piece of a function body: the `reflect` calls it made, in order, and how
it ended. -/
structure Run (α : Type) where
  calls : List String
  ctl : Ctl α

/-- Sequencing: the second piece runs only when the first ended with a
value. -/
def Run.bind {α β : Type} (m : Run α) (f : α → Run β) : Run β :=
  match m.ctl with
  | .val a => ⟨m.calls ++ (f a).calls, (f a).ctl⟩
  | .ret fd err => ⟨m.calls, .ret fd err⟩
  | .panic r => ⟨m.calls, .panic r⟩

instance : Monad Run where
  pure a := ⟨[], .val a⟩
  bind := Run.bind

/-- The statement `return fd, err`. -/
def Run.ret {α : Type} (fd : Int) (err : Option String) : Run α :=
  ⟨[], .ret fd err⟩

/-! ## The `reflect` operations used by the resolver -/

/-- Go's `reflect.ValueOf` on a non-nil interface: the value of its dynamic
content. -/
def reflect.ValueOf (i : Value) : Run Value :=
  ⟨["reflect.ValueOf"], .val i⟩

/-- Go's `Value.Elem`: the content of an interface or the target of a
pointer, the zero Value when that is nil; panics on any other kind. -/
def Value.Elem (v : Value) : Run Value :=
  ⟨["reflect.Value.Elem"],
    match v with
    | .iface (some x) => .val x
    | .iface none => .val .zero
    | .ptr (some x) => .val x
    | .ptr none => .val .zero
    | _ => .panic (ValueError "reflect.Value.Elem" v)⟩

/-- Go's `reflect.Indirect`: `v` itself unless it is a pointer, in which case
the pointer target (the zero Value for a nil pointer). -/
def reflect.Indirect (v : Value) : Run Value :=
  ⟨["reflect.Indirect"],
    match v with
    | .ptr (some x) => .val x
    | .ptr none => .val .zero
    | _ => .val v⟩

/-- Go's `Value.FieldByName`: panics unless `v` is a struct; the zero Value
when the name does not resolve; panics when the field is promoted through a
nil embedded pointer. -/
def Value.FieldByName (v : Value) (name : String) : Run Value :=
  ⟨["reflect.Value.FieldByName"],
    match v with
    | .struct fs =>
      match fs.lookup name with
      | some (some x) => .val x
      | some none => .panic "reflect: indirection through nil pointer to embedded struct"
      | none => .val .zero
    | _ => .panic (ValueError "reflect.Value.FieldByName" v)⟩

/-- Go's `Value.IsValid`: false exactly for the zero Value. -/
def Value.IsValid (v : Value) : Run Bool :=
  ⟨["reflect.Value.IsValid"],
    match v with
    | .zero => .val false
    | _ => .val true⟩

/-- Go's `Value.Int`: the integer as an `int64`; panics unless the kind is a
signed integer kind. -/
def Value.Int (v : Value) : Run Int :=
  ⟨["reflect.Value.Int"],
    match v with
    | .int _ n => .val n
    | _ => .panic (ValueError "reflect.Value.Int" v)⟩

/-- The conversion `int(x)` of an `int64` on a platform whose `int` has
`intSize` bits: two's-complement truncation. -/
def toInt (intSize : Nat) (x : Int) : Int :=
  (x + 2 ^ intSize / 2) % 2 ^ intSize - 2 ^ intSize / 2

/-- Go's `errors.New`. -/
def errors.New (msg : String) : Option String := some msg

/-- Go's `fmt.Errorf("failed to get file descriptor: %v", r)`. -/
def fmt.Errorf (r : String) : Option String :=
  some ("failed to get file descriptor: " ++ r)

/-! ## The resolver -/

/-- A `net.Conn` interface value: nil, or a dynamic value `v` together with
whether its dynamic type is `*tls.Conn` (what the type assertion
`conn.(*tls.Conn)` tests). -/
inductive Conn where
  | nil
  | dyn (isTLS : Bool) (v : Value)

/-- Lines 36-57, the `*tls.Conn` branch: the value that is assigned to
`fd`. -/
def tlsBranch (intSize : Nat) (tlsConn : Value) : Run Int := do
  let v ← reflect.Indirect (← reflect.ValueOf tlsConn)
  let connField ← v.FieldByName "conn"
  if !(← connField.IsValid) then
    Run.ret (-1) (errors.New "failed to get conn field from tls.Conn")
  else do
    let underlyingConn ← reflect.Indirect (← connField.Elem)
    let netConn ← underlyingConn.FieldByName "conn"
    let netFD ← (← reflect.Indirect netConn).FieldByName "fd"
    let pfd ← (← reflect.Indirect netFD).FieldByName "pfd"
    let sysfd ← pfd.FieldByName "Sysfd"
    return toInt intSize (← sysfd.Int)

/-- Lines 58-65, the branch for every other connection: the value that is
assigned to `fd`. -/
def plainBranch (intSize : Nat) (conn : Value) : Run Int := do
  let v ← reflect.Indirect (← reflect.ValueOf conn)
  let connField ← v.FieldByName "conn"
  let netFD ← reflect.Indirect (← connField.FieldByName "fd")
  let pfd ← netFD.FieldByName "pfd"
  return toInt intSize (← (← pfd.FieldByName "Sysfd").Int)

/-- Lines 36-65, the `if`/`else` on the type assertion
`tlsConn, ok := conn.(*tls.Conn)`: the value that is assigned to `fd`. -/
def traversal (intSize : Nat) (isTLS : Bool) (c : Value) : Run Int :=
  if isTLS then tlsBranch intSize c else plainBranch intSize c

/-- The frame of one call: the local variables `fd` and `err`, the two
unnamed result slots, and the panic that is unwinding, if any. -/
structure Frame where
  fd : Int
  err : Option String
  res0 : Int
  res1 : Option String
  panicking : Option String

/-- Lines 67-75, run once `fd` has been assigned: each `return` stores its
operands in the result slots. -/
def finish (fr : Frame) : Frame :=
  if fr.err ≠ none then
    { fr with res0 := -1, res1 := fr.err }
  else if fr.fd < 0 then
    { fr with res0 := -1, res1 := errors.New "invalid file descriptor" }
  else
    { fr with res0 := fr.fd, res1 := none }

/-- Lines 28-33, the deferred closure. `recover()` yields the unwinding panic
and stops it; the closure then assigns the local variables `fd` and `err`. The
results of the function are unnamed, so the closure cannot reach the result
slots. -/
def deferred (fr : Frame) : Frame :=
  match fr.panicking with
  | some r => { fr with fd := -1, err := fmt.Errorf r, panicking := none }
  | none => fr

/-- What the caller observes: the pair of results, or a panic that left the
function. -/
inductive Outcome where
  | returned (fd : Int) (err : Option String)
  | panicked (r : String)
  deriving DecidableEq

/-- Leaving the frame after the deferred calls have run: a panic that is still
unwinding goes on into the caller, otherwise the caller receives the result
slots. -/
def Frame.leave (fr : Frame) : Outcome :=
  match fr.panicking with
  | some r => .panicked r
  | none => .returned fr.res0 fr.res1

/-- One call of the resolver: the `reflect` calls made and the outcome. -/
structure Call where
  calls : List String
  outcome : Outcome

/-- The function `GetFdFromConnSafe` (lines 20-76) on a platform whose `int`
has `intSize` bits. -/
def GetFdFromConnSafe (intSize : Nat) (conn : Conn) : Call :=
  match conn with
  | .nil => ⟨[], .returned (-1) (errors.New "connection is nil")⟩
  | .dyn isTLS c =>
    let fr : Frame := { fd := 0, err := none, res0 := 0, res1 := none, panicking := none }
    let r := traversal intSize isTLS c
    let fr :=
      match r.ctl with
      | .val x => finish { fr with fd := x }
      | .ret a e => { fr with res0 := a, res1 := e }
      | .panic p => { fr with panicking := some p }
    ⟨r.calls, (deferred fr).leave⟩

/-! ## Shapes of connection handles -/

/-- The value `v` is the struct with the fields `fs`, or a non-nil pointer to
that struct. -/
def StructAt (v : Value) (fs : List (String × Option Value)) : Prop :=
  v = .struct fs ∨ v = .ptr (some (.struct fs))

/-- The layout conn -> fd -> pfd -> Sysfd of the plain connections of package
`net` (`*net.TCPConn` and its siblings): the handle is (a pointer to) a struct
whose field `conn` is a struct, whose field `fd` is (a pointer to) a struct,
whose field `pfd` is a struct, whose field `Sysfd` is a signed integer holding
`d`. -/
def PlainLayout (p : Value) (d : Int) : Prop :=
  ∃ tcp c fdv nfd pfd k,
    StructAt p tcp ∧
    tcp.lookup "conn" = some (some (.struct c)) ∧
    c.lookup "fd" = some (some fdv) ∧
    StructAt fdv nfd ∧
    nfd.lookup "pfd" = some (some (.struct pfd)) ∧
    pfd.lookup "Sysfd" = some (some (.int k d))

/-- The layout of a `*tls.Conn` that wraps `p`: a pointer to a struct whose
field `conn`, of interface type, holds `p`. -/
def SecureLayout (t p : Value) : Prop :=
  ∃ tls, t = .ptr (some (.struct tls)) ∧ tls.lookup "conn" = some (some (.iface (some p)))

/-- A handle `c` resolves through `p`: it is the plain connection `p` itself,
or a `*tls.Conn` that wraps `p`. -/
def ResolvesThrough (c : Conn) (p : Value) : Prop :=
  c = .dyn false p ∨ ∃ t, c = .dyn true t ∧ SecureLayout t p

/-- The reflect view of a value laid out like `*net.TCPConn`, with `sysfd` in
the place of the field `Sysfd` of its `poll.FD`. -/
def netConnWith (sysfd : Value) : Value :=
  .ptr (some (.struct
    [("conn", some (.struct
      [("fd", some (.ptr (some (.struct
        [("pfd", some (.struct
          [("fdmu", some (.struct [("state", some (.other .Uint64))])),
           ("Sysfd", some sysfd),
           ("IsStream", some (.other .Bool))])),
         ("family", some (.int .Int 2)),
         ("net", some (.other .String))]))))]))]))

/-- The reflect view of a `*net.TCPConn` whose socket has descriptor `d`. -/
def tcpConn (d : Int) : Value :=
  netConnWith (.int .Int d)

/-- The reflect view of `&net.TCPConn{}`: the pointer `fd` is nil. -/
def tcpConnNoFd : Value :=
  .ptr (some (.struct [("conn", some (.struct [("fd", some (.ptr none))]))]))

/-- The reflect view of one end of `net.Pipe()`, a `*net.pipe`: an in-memory
`net.Conn` with no field `conn`. -/
def pipeConn : Value :=
  .ptr (some (.struct
    [("wrMu", some (.struct [])),
     ("rdRx", some (.other .Chan)),
     ("rdTx", some (.other .Chan)),
     ("wrTx", some (.other .Chan)),
     ("wrRx", some (.other .Chan)),
     ("once", some (.struct [])),
     ("localDone", some (.other .Chan)),
     ("remoteDone", some (.other .Chan)),
     ("readDeadline", some (.struct [])),
     ("writeDeadline", some (.struct []))]))

/-- The reflect view of a `*tls.Conn` whose field `conn` holds `inner`. -/
def tlsConn (inner : Option Value) : Value :=
  .ptr (some (.struct
    [("conn", some (.iface inner)),
     ("isClient", some (.other .Bool)),
     ("vers", some (.other .Uint16))]))

/-! ## Lemmas on the pieces -/

theorem toInt_of_fits (intSize : Nat) (x : Int)
    (hlo : -(2 ^ intSize / 2) ≤ x) (hhi : x < 2 ^ intSize / 2) :
    toInt intSize x = x := by
  unfold toInt
  cases intSize with
  | zero => norm_num at hlo hhi; omega
  | succ k =>
    have hpos : (0 : Int) < 2 ^ k := by positivity
    have h2 : (2 : Int) ^ (k + 1) = 2 * 2 ^ k := by ring
    rw [h2] at hlo hhi ⊢
    have hhalf : (2 * (2 : Int) ^ k) / 2 = 2 ^ k := by omega
    rw [hhalf] at hlo hhi ⊢
    have : (x + 2 ^ k) % (2 * 2 ^ k) = x + 2 ^ k :=
      Int.emod_eq_of_lt (by omega) (by omega)
    rw [this]; ring

theorem plainBranch_ctl (intSize : Nat) (p : Value) (d : Int) (hp : PlainLayout p d) :
    (plainBranch intSize p).ctl = .val (toInt intSize d) := by
  obtain ⟨tcp, c, fdv, nfd, pfd, k, hp, h1, h2, hf, h3, h4⟩ := hp
  rcases hp with rfl | rfl <;> rcases hf with rfl | rfl <;>
    simp [plainBranch, bind, Run.bind, pure, reflect.ValueOf, reflect.Indirect,
      Value.FieldByName, Value.Int, h1, h2, h3, h4]

theorem tlsBranch_ctl (intSize : Nat) (t p : Value) (d : Int)
    (ht : SecureLayout t p) (hp : PlainLayout p d) :
    (tlsBranch intSize t).ctl = .val (toInt intSize d) := by
  obtain ⟨tls, rfl, h0⟩ := ht
  obtain ⟨tcp, c, fdv, nfd, pfd, k, hp, h1, h2, hf, h3, h4⟩ := hp
  rcases hp with rfl | rfl <;> rcases hf with rfl | rfl <;>
    simp [tlsBranch, bind, Run.bind, pure, reflect.ValueOf, reflect.Indirect,
      Value.FieldByName, Value.Int, Value.IsValid, Value.Elem, h0, h1, h2, h3, h4]

theorem traversal_ctl (intSize : Nat) (c : Conn) (p : Value) (d : Int)
    (hc : ResolvesThrough c p) (hp : PlainLayout p d) :
    ∃ isTLS v, c = .dyn isTLS v ∧ (traversal intSize isTLS v).ctl = .val (toInt intSize d) := by
  rcases hc with rfl | ⟨t, rfl, ht⟩
  · exact ⟨false, p, rfl, by simpa [traversal] using plainBranch_ctl intSize p d hp⟩
  · exact ⟨true, t, rfl, by simpa [traversal] using tlsBranch_ctl intSize t p d ht hp⟩

theorem bind_ctl_ret {α β : Type} (m : Run α) (f : α → Run β) (a : Int) (e : Option String)
    (h : (m >>= f).ctl = .ret a e) :
    m.ctl = .ret a e ∨ ∃ x, m.ctl = .val x ∧ (f x).ctl = .ret a e := by
  simp only [bind, Run.bind] at h
  split at h
  · rename_i x hx
    exact Or.inr ⟨x, hx, h⟩
  · rename_i fd err hx
    simp only [Ctl.ret.injEq] at h
    obtain ⟨rfl, rfl⟩ := h
    exact Or.inl hx
  · simp at h

theorem ValueOf_no_ret (v : Value) (a : Int) (e : Option String) :
    (reflect.ValueOf v).ctl ≠ .ret a e := by
  simp [reflect.ValueOf]

theorem Indirect_no_ret (v : Value) (a : Int) (e : Option String) :
    (reflect.Indirect v).ctl ≠ .ret a e := by
  unfold reflect.Indirect; dsimp only; split <;> simp

theorem Elem_no_ret (v : Value) (a : Int) (e : Option String) :
    (Value.Elem v).ctl ≠ .ret a e := by
  unfold Value.Elem; dsimp only; split <;> simp

theorem FieldByName_no_ret (v : Value) (name : String) (a : Int) (e : Option String) :
    (Value.FieldByName v name).ctl ≠ .ret a e := by
  unfold Value.FieldByName; dsimp only; split
  · split <;> simp
  · simp

theorem IsValid_no_ret (v : Value) (a : Int) (e : Option String) :
    (Value.IsValid v).ctl ≠ .ret a e := by
  unfold Value.IsValid; dsimp only; split <;> simp

theorem Int_no_ret (v : Value) (a : Int) (e : Option String) :
    (Value.Int v).ctl ≠ .ret a e := by
  unfold Value.Int; dsimp only; split <;> simp

theorem pure_no_ret {α : Type} (x : α) (a : Int) (e : Option String) :
    (pure x : Run α).ctl ≠ .ret a e := by
  simp [pure]

/-- The branch for ordinary connections contains no `return`. -/
theorem plainBranch_no_ret (intSize : Nat) (v : Value) (a : Int) (e : Option String) :
    (plainBranch intSize v).ctl ≠ .ret a e := by
  intro h
  unfold plainBranch at h
  repeat
    replace h := bind_ctl_ret _ _ _ _ h
    rcases h with h | ⟨_, -, h⟩
    · first
        | exact ValueOf_no_ret _ _ _ h
        | exact Indirect_no_ret _ _ _ h
        | exact FieldByName_no_ret _ _ _ _ h
        | exact Int_no_ret _ _ _ h
  exact pure_no_ret _ _ _ h

/-- The only `return` inside the `*tls.Conn` branch is the one of line 43. -/
theorem tlsBranch_ret (intSize : Nat) (v : Value) (a : Int) (e : Option String)
    (h : (tlsBranch intSize v).ctl = .ret a e) :
    a = -1 ∧ e = some "failed to get conn field from tls.Conn" := by
  unfold tlsBranch at h
  repeat
    replace h := bind_ctl_ret _ _ _ _ h
    rcases h with h | ⟨_, -, h⟩
    · first
        | exact absurd h (ValueOf_no_ret _ _ _)
        | exact absurd h (Indirect_no_ret _ _ _)
        | exact absurd h (FieldByName_no_ret _ _ _ _)
        | exact absurd h (IsValid_no_ret _ _ _)
  split at h
  · simpa [Run.ret, errors.New, eq_comm] using h
  · exfalso
    repeat
      replace h := bind_ctl_ret _ _ _ _ h
      rcases h with h | ⟨_, -, h⟩
      · first
          | exact Elem_no_ret _ _ _ h
          | exact Indirect_no_ret _ _ _ h
          | exact FieldByName_no_ret _ _ _ _ h
          | exact Int_no_ret _ _ _ h
    exact pure_no_ret _ _ _ h

theorem traversal_ret (intSize : Nat) (isTLS : Bool) (v : Value) (a : Int) (e : Option String)
    (h : (traversal intSize isTLS v).ctl = .ret a e) :
    a = -1 ∧ e = some "failed to get conn field from tls.Conn" := by
  cases isTLS with
  | true => exact tlsBranch_ret intSize v a e (by simpa [traversal] using h)
  | false => exact absurd (by simpa [traversal] using h) (plainBranch_no_ret intSize v a e)

/-- What the caller receives for a non-nil handle, by the way the traversal
ended. -/
theorem outcome_dyn (intSize : Nat) (isTLS : Bool) (v : Value) :
    (GetFdFromConnSafe intSize (.dyn isTLS v)).outcome =
      match (traversal intSize isTLS v).ctl with
      | .val x =>
        if x < 0 then .returned (-1) (some "invalid file descriptor") else .returned x none
      | .ret a e => .returned a e
      | .panic _ => .returned 0 none := by
  simp only [GetFdFromConnSafe]
  cases (traversal intSize isTLS v).ctl with
  | val x =>
    by_cases hx : x < 0 <;> simp [finish, deferred, Frame.leave, errors.New, hx]
  | ret a e => simp [deferred, Frame.leave]
  | panic r => simp [deferred, Frame.leave]

theorem half_nonneg (intSize : Nat) : (0 : Int) ≤ 2 ^ intSize / 2 :=
  Int.ediv_nonneg (by positivity) (by norm_num)

theorem tcpConn_layout (d : Int) : PlainLayout (tcpConn d) d :=
  ⟨_, _, _, _, _, _, Or.inr rfl, rfl, rfl, Or.inr rfl, rfl, rfl⟩

theorem tlsConn_layout (p : Value) : SecureLayout (tlsConn (some p)) p :=
  ⟨_, rfl, rfl⟩

/-! ## The claims -/

/-- C1: for a plain connection handle (not a `*tls.Conn`, laid out
conn -> fd -> pfd -> Sysfd) whose `Sysfd` holds a non-negative `int` value `d`,
`GetFdFromConnSafe` returns exactly `(d, nil)`. -/
theorem plain_returns_descriptor (intSize : Nat) (p : Value) (d : Int)
    (hp : PlainLayout p d) (h0 : 0 ≤ d) (hhi : d < 2 ^ intSize / 2) :
    (GetFdFromConnSafe intSize (.dyn false p)).outcome = .returned d none := by
  have hfit : toInt intSize d = d :=
    toInt_of_fits intSize d (by have := half_nonneg intSize; omega) hhi
  have h : (traversal intSize false p).ctl = .val d := by
    simpa [traversal, hfit] using plainBranch_ctl intSize p d hp
  rw [outcome_dyn, h]
  simp [not_lt.mpr h0]

/-- C1, the scenario of the specification: a plain connection with descriptor 7
resolves to `(7, nil)`. -/
theorem plain_returns_descriptor_witness :
    PlainLayout (tcpConn 7) 7 ∧
      (GetFdFromConnSafe 64 (.dyn false (tcpConn 7))).outcome = .returned 7 none :=
  ⟨tcpConn_layout 7,
    plain_returns_descriptor 64 (tcpConn 7) 7 (tcpConn_layout 7) (by decide) (by decide)⟩

/-- C2: unwrap-then-resolve equivalence. For a plain connection `p` with a
non-negative `int` descriptor `d` and a `*tls.Conn` `t` whose field `conn`
holds `p`, resolving `t` gives the same result as resolving `p`, namely
`(d, nil)`. -/
theorem secure_resolves_like_inner (intSize : Nat) (t p : Value) (d : Int)
    (hp : PlainLayout p d) (ht : SecureLayout t p) (h0 : 0 ≤ d) (hhi : d < 2 ^ intSize / 2) :
    (GetFdFromConnSafe intSize (.dyn true t)).outcome =
        (GetFdFromConnSafe intSize (.dyn false p)).outcome ∧
      (GetFdFromConnSafe intSize (.dyn false p)).outcome = .returned d none := by
  have hfit : toInt intSize d = d :=
    toInt_of_fits intSize d (by have := half_nonneg intSize; omega) hhi
  have hplain : (traversal intSize false p).ctl = .val d := by
    simpa [traversal, hfit] using plainBranch_ctl intSize p d hp
  have htls : (traversal intSize true t).ctl = .val d := by
    simpa [traversal, hfit] using tlsBranch_ctl intSize t p d ht hp
  rw [outcome_dyn, outcome_dyn, hplain, htls]
  simp [not_lt.mpr h0]

/-- C2, the scenario of the specification: a secure connection wrapping the
plain connection with descriptor 7 resolves to `(7, nil)` as that plain
connection does. -/
theorem secure_resolves_like_inner_witness :
    (GetFdFromConnSafe 64 (.dyn true (tlsConn (some (tcpConn 7))))).outcome =
        (GetFdFromConnSafe 64 (.dyn false (tcpConn 7))).outcome ∧
      (GetFdFromConnSafe 64 (.dyn false (tcpConn 7))).outcome = .returned 7 none :=
  secure_resolves_like_inner 64 (tlsConn (some (tcpConn 7))) (tcpConn 7) 7
    (tcpConn_layout 7) (tlsConn_layout (tcpConn 7)) (by decide) (by decide)

/-- C3: for the nil handle `GetFdFromConnSafe` returns
`(-1, "connection is nil")`, and it does so without a single `reflect` call:
no traversal is attempted. -/
theorem nil_connection_rejected (intSize : Nat) :
    (GetFdFromConnSafe intSize .nil).outcome = .returned (-1) (some "connection is nil") ∧
      (GetFdFromConnSafe intSize .nil).calls = [] :=
  ⟨rfl, rfl⟩

/-- C4: the claim asks for `(-1, "failed to get file descriptor: ...")` whenever
a traversal step meets a missing or mistyped field. The code does not deliver
it. On `&net.TCPConn{}` (nil `fd`) the step `FieldByName("pfd")` panics on the
zero Value, and on a connection whose `Sysfd` has kind `uintptr` the step
`Int()` panics; in both cases the caller receives `(0, nil)`. -/
theorem extraction_fault_yields_zero_nil :
    (traversal 64 false tcpConnNoFd).ctl =
        .panic "reflect: call of reflect.Value.FieldByName on zero Value" ∧
      (GetFdFromConnSafe 64 (.dyn false tcpConnNoFd)).outcome = .returned 0 none ∧
      (traversal 64 false (netConnWith (.other .Uintptr))).ctl =
        .panic "reflect: call of reflect.Value.Int on uintptr Value" ∧
      (GetFdFromConnSafe 64 (.dyn false (netConnWith (.other .Uintptr)))).outcome =
        .returned 0 none := by
  refine ⟨?_, ?_, ?_, ?_⟩ <;> decide

/-- C5: fault containment. For every handle whatsoever and every platform
width, the call returns normally with a pair `(fd, err)`; no panic leaves
`GetFdFromConnSafe`. -/
theorem no_panic_escapes (intSize : Nat) (conn : Conn) :
    ∃ fd err, (GetFdFromConnSafe intSize conn).outcome = .returned fd err := by
  cases conn with
  | nil => exact ⟨-1, some "connection is nil", rfl⟩
  | dyn isTLS v =>
    rw [outcome_dyn]
    cases (traversal intSize isTLS v).ctl with
    | val x =>
      by_cases hx : x < 0
      · exact ⟨-1, some "invalid file descriptor", by simp [hx]⟩
      · exact ⟨x, none, by simp [hx]⟩
    | ret a e => exact ⟨a, e, rfl⟩
    | panic r => exact ⟨0, none, rfl⟩

/-- C6: the claim asks for `-1` and a non-nil error on a handle of an
unrecognized variant. The code does not deliver it. On one end of `net.Pipe()`,
which has no field `conn`, the step `FieldByName("fd")` panics on the zero
Value and the caller receives `(0, nil)`. -/
theorem unrecognized_yields_zero_nil :
    (traversal 64 false pipeConn).ctl =
        .panic "reflect: call of reflect.Value.FieldByName on zero Value" ∧
      (GetFdFromConnSafe 64 (.dyn false pipeConn)).outcome = .returned 0 none := by
  refine ⟨?_, ?_⟩ <;> decide

/-- C7: for a handle that is a plain connection, or a `*tls.Conn` wrapping a
plain connection, whose `Sysfd` holds a negative `int` value,
`GetFdFromConnSafe` returns `(-1, "invalid file descriptor")`. -/
theorem negative_descriptor_rejected (intSize : Nat) (c : Conn) (p : Value) (d : Int)
    (hc : ResolvesThrough c p) (hp : PlainLayout p d)
    (hneg : d < 0) (hlo : -(2 ^ intSize / 2) ≤ d) :
    (GetFdFromConnSafe intSize c).outcome =
      .returned (-1) (some "invalid file descriptor") := by
  have hfit : toInt intSize d = d :=
    toInt_of_fits intSize d hlo (by have := half_nonneg intSize; omega)
  obtain ⟨isTLS, v, rfl, h⟩ := traversal_ctl intSize c p d hc hp
  rw [outcome_dyn, h, hfit]
  simp [hneg]

/-- C7 on the descriptor `-1`, for the plain connection and for the secure
connection that wraps it. -/
theorem negative_descriptor_rejected_witness :
    (GetFdFromConnSafe 64 (.dyn false (tcpConn (-1)))).outcome =
        .returned (-1) (some "invalid file descriptor") ∧
      (GetFdFromConnSafe 64 (.dyn true (tlsConn (some (tcpConn (-1)))))).outcome =
        .returned (-1) (some "invalid file descriptor") :=
  ⟨negative_descriptor_rejected 64 (.dyn false (tcpConn (-1))) (tcpConn (-1)) (-1)
      (Or.inl rfl) (tcpConn_layout (-1)) (by decide) (by decide),
    negative_descriptor_rejected 64 (.dyn true (tlsConn (some (tcpConn (-1))))) (tcpConn (-1)) (-1)
      (Or.inr ⟨_, rfl, tlsConn_layout (tcpConn (-1))⟩) (tcpConn_layout (-1))
      (by decide) (by decide)⟩

/-- C8: the claim asks for `-1` and a non-nil error on every `*tls.Conn` whose
inner handle cannot be located as a plain connection. The code delivers it when
the wrapper has no field `conn` (line 43), but not otherwise: with a nil inner
handle, with another `*tls.Conn` inside, or with a `net.Pipe()` end inside, a
traversal step panics and the caller receives `(0, nil)`. -/
theorem secure_without_plain_inner :
    (GetFdFromConnSafe 64 (.dyn true (.ptr (some (.struct []))))).outcome =
        .returned (-1) (some "failed to get conn field from tls.Conn") ∧
      (GetFdFromConnSafe 64 (.dyn true (tlsConn none))).outcome = .returned 0 none ∧
      (GetFdFromConnSafe 64 (.dyn true (tlsConn (some (tlsConn (some (tcpConn 7))))))).outcome =
        .returned 0 none ∧
      (GetFdFromConnSafe 64 (.dyn true (tlsConn (some pipeConn)))).outcome =
        .returned 0 none := by
  refine ⟨?_, ?_, ?_, ?_⟩ <;> decide

/-- C9: no ambiguous pair. For every handle the call returns a pair `(fd, err)`
for which exactly one of `err = nil ∧ fd ≥ 0` and `err ≠ nil ∧ fd = -1`
holds. -/
theorem result_pair_well_formed (intSize : Nat) (conn : Conn) :
    ∃ fd err, (GetFdFromConnSafe intSize conn).outcome = .returned fd err ∧
      Xor' (err = none ∧ 0 ≤ fd) (err ≠ none ∧ fd = -1) := by
  cases conn with
  | nil => exact ⟨-1, some "connection is nil", rfl, Or.inr ⟨⟨by simp, rfl⟩, by simp⟩⟩
  | dyn isTLS v =>
    rw [outcome_dyn]
    cases h : (traversal intSize isTLS v).ctl with
    | val x =>
      by_cases hx : x < 0
      · exact ⟨-1, some "invalid file descriptor", by simp [hx],
          Or.inr ⟨⟨by simp, rfl⟩, by simp⟩⟩
      · exact ⟨x, none, by simp [hx], Or.inl ⟨⟨rfl, by omega⟩, by simp⟩⟩
    | ret a e =>
      obtain ⟨rfl, rfl⟩ := traversal_ret intSize isTLS v a e h
      exact ⟨-1, _, rfl, Or.inr ⟨⟨by simp, rfl⟩, by simp⟩⟩
    | panic r => exact ⟨0, none, rfl, Or.inl ⟨⟨rfl, le_refl 0⟩, by simp⟩⟩

/-- C10: whenever a traversal step panics, the call returns exactly `(0, nil)`:
the deferred closure recovers the panic and assigns the local variables `fd`
and `err`, and the unnamed result slots keep their zero values. -/
theorem panic_yields_zero_nil (intSize : Nat) (isTLS : Bool) (v : Value)
    (h : ∃ r, (traversal intSize isTLS v).ctl = .panic r) :
    (GetFdFromConnSafe intSize (.dyn isTLS v)).outcome = .returned 0 none := by
  obtain ⟨r, hr⟩ := h
  rw [outcome_dyn, hr]

/-- C10 on the handles the claim lists: a `net.Pipe()` end (no field `conn`), a
nil `*net.TCPConn`, a nil `*tls.Conn`, a `*tls.Conn` wrapping a `*tls.Conn`,
and a connection whose `Sysfd` has an unsigned kind. -/
theorem panic_yields_zero_nil_witness :
    (GetFdFromConnSafe 64 (.dyn false pipeConn)).outcome = .returned 0 none ∧
      (GetFdFromConnSafe 64 (.dyn false (.ptr none))).outcome = .returned 0 none ∧
      (GetFdFromConnSafe 64 (.dyn true (.ptr none))).outcome = .returned 0 none ∧
      (GetFdFromConnSafe 64 (.dyn true (tlsConn (some (tlsConn (some (tcpConn 7))))))).outcome =
        .returned 0 none ∧
      (GetFdFromConnSafe 64 (.dyn false (netConnWith (.other .Uint64)))).outcome =
        .returned 0 none :=
  ⟨panic_yields_zero_nil 64 false pipeConn ⟨_, rfl⟩,
    panic_yields_zero_nil 64 false (.ptr none) ⟨_, rfl⟩,
    panic_yields_zero_nil 64 true (.ptr none) ⟨_, rfl⟩,
    panic_yields_zero_nil 64 true (tlsConn (some (tlsConn (some (tcpConn 7))))) ⟨_, rfl⟩,
    panic_yields_zero_nil 64 false (netConnWith (.other .Uint64)) ⟨_, rfl⟩⟩

end Exporter
